import Mathlib

/-!
# Depth filter of SVO (`svo/src/depth_filter.cpp`)

Shallow embedding of the seed store, the probabilistic seed update, the frame
intake and the worker loop of `svo::DepthFilter`, with the properties of the
specification proved (or refuted) against it.

Conventions of the embedding:

* `float` and `double` expressions are read in exact real arithmetic. A value is
  a real number or `FReal.nan`; a division by zero and the square root of a
  negative number give `nan`, every operation on `nan` gives `nan`, and every
  comparison with `nan` is false, as for the IEEE NaN. The IEEE infinities are
  not modelled: where the float code gets an infinity the value is `nan`.
* Pointers to frames are natural numbers (`Frame.ptr`); two frame pointers are
  equal when these numbers are.
* The static counters `Seed::batch_counter` and `Seed::seed_counter` are fields
  of the filter state; they are unbounded integers (the `int` counters are
  taken below their overflow).
* The feature detector, the matcher, the camera geometry and `computeTau`
  are parameters (`Env`).
-/

namespace svo

/-! ## Float values read as reals -/

/-- Value of a floating point expression in exact real arithmetic: a real
number, or `nan` when the expression has no real value. -/
inductive FReal where
  | real : ℝ → FReal
  | nan : FReal

namespace FReal

/-- Sum; `nan` is absorbing. -/
def add : FReal → FReal → FReal
  | real a, real b => real (a + b)
  | _, _ => nan

/-- Difference; `nan` is absorbing. -/
def sub : FReal → FReal → FReal
  | real a, real b => real (a - b)
  | _, _ => nan

/-- Product; `nan` is absorbing. -/
def mul : FReal → FReal → FReal
  | real a, real b => real (a * b)
  | _, _ => nan

/-- Quotient; a zero divisor has no real quotient. (The float quotient of a
non-zero number by zero is an infinity; infinities are not values of the
exact real reading and are not told apart from NaN here.) -/
noncomputable def div : FReal → FReal → FReal
  | real a, real b => if b = 0 then nan else real (a / b)
  | _, _ => nan

/-- Unary minus. -/
def neg : FReal → FReal
  | real a => real (-a)
  | nan => nan

instance : Add FReal := ⟨add⟩
instance : Sub FReal := ⟨sub⟩
instance : Mul FReal := ⟨mul⟩
noncomputable instance : Div FReal := ⟨div⟩
instance : Neg FReal := ⟨neg⟩
instance (n : Nat) : OfNat FReal n := ⟨real (n : ℝ)⟩

/-- Function `sqrt` of the C library: NaN on a negative argument. -/
noncomputable def sqrt : FReal → FReal
  | real a => if a < 0 then nan else real (Real.sqrt a)
  | nan => nan

/-- Function `exp` of the C library. -/
noncomputable def exp : FReal → FReal
  | real a => real (Real.exp a)
  | nan => nan

/-- Function `std::isnan`. -/
def isnan : FReal → Bool
  | real _ => false
  | nan => true

/-- Comparison `x < y` of two floats: false when one of them is NaN. -/
noncomputable def lt : FReal → FReal → Bool
  | real a, real b => decide (a < b)
  | _, _ => false

/-- Function `std::max(x, y)`, which is `(x < y) ? y : x`. -/
noncomputable def max (x y : FReal) : FReal :=
  if lt x y then y else x

/-- The value is a real number greater than zero. -/
def Pos : FReal → Prop
  | real a => 0 < a
  | nan => False

end FReal

/-! ## Data model -/

/-- A frame, as far as the depth filter looks at it: its address, its keyframe
flag and the integer pixel positions of its features (`fts_`). -/
structure Frame where
  ptr : Nat
  is_keyframe : Bool
  fts : List (Int × Int)
  deriving DecidableEq, Repr

/-- A feature: the address of its frame, its pixel position and its pyramid
level. -/
structure Feature where
  frame : Nat
  px : Int × Int
  level : Int
  deriving DecidableEq, Repr

/-- A point returned by the feature detector (`x_`, `y_`, `level_`). -/
structure FeaturePoint where
  x : Int
  y : Int
  level : Int
  deriving DecidableEq, Repr

/-- A seed (`struct Seed`). -/
structure Seed where
  batch_id : Int
  id : Int
  ftr : Feature
  a : FReal
  b : FReal
  mu : FReal
  z_range : FReal
  sigma2 : FReal

/-- Constructor `Seed::Seed(ftr, depth_mean, depth_min)`; the caller advances
`seed_counter` by one. -/
noncomputable def Seed.new (batch_counter seed_counter : Int) (ftr : Feature)
    (depth_mean depth_min : FReal) : Seed :=
  let z_range := 1 / depth_min
  { batch_id := batch_counter
    id := seed_counter
    ftr := ftr
    a := 10
    b := 10
    mu := 1 / depth_mean
    z_range := z_range
    sigma2 := z_range * z_range / 36 }

/-! ## The seed update -/

/-- Constant `M_PI`. -/
noncomputable def M_PI : FReal := FReal.real Real.pi

/-- Function `pdf(nd, x)` for the normal distribution `nd` of mean `mean` and
standard deviation `sd`. -/
noncomputable def pdf (mean sd x : FReal) : FReal :=
  let e := x - mean
  let e := e * (-e)
  let e := e / (2 * sd * sd)
  FReal.exp e / (sd * FReal.sqrt (2 * M_PI))

/-- Method `DepthFilter::updateSeed(x, tau2, seed)`. -/
noncomputable def updateSeed (x tau2 : FReal) (seed : Seed) : Seed :=
  let norm_scale := FReal.sqrt (seed.sigma2 + tau2)
  if norm_scale.isnan then seed
  else
    let s2 := 1 / (1 / seed.sigma2 + 1 / tau2)
    let m := s2 * (seed.mu / seed.sigma2 + x / tau2)
    let C1 := seed.a / (seed.a + seed.b) * pdf seed.mu norm_scale x
    let C2 := seed.b / (seed.a + seed.b) * 1 / seed.z_range
    let normalization_constant := C1 + C2
    let C1 := C1 / normalization_constant
    let C2 := C2 / normalization_constant
    let f := C1 * (seed.a + 1) / (seed.a + seed.b + 1) + C2 * seed.a / (seed.a + seed.b + 1)
    let e := C1 * (seed.a + 1) * (seed.a + 2) / ((seed.a + seed.b + 1) * (seed.a + seed.b + 2))
      + C2 * seed.a * (seed.a + 1) / ((seed.a + seed.b + 1) * (seed.a + seed.b + 2))
    let mu_new := C1 * m + C2 * seed.mu
    let sigma2_new := C1 * (s2 + m * m) + C2 * (seed.sigma2 + seed.mu * seed.mu) - mu_new * mu_new
    let a_new := (e - f) / (f - e / f)
    let b_new := a_new * (1 - f) / f
    { seed with sigma2 := sigma2_new, mu := mu_new, a := a_new, b := b_new }

/-! ## The filter state -/

/-- Options of the filter (`options_`). -/
structure Options where
  max_n_kfs : Int
  seed_convergence_sigma2_thresh : FReal
  verbose : Bool

/-- Occupancy grid of the feature detector: the cells set occupied, the last
one first. -/
abbrev Grid := List (Int × Int)

/-- Method `setOccupied(x, y)` of the grid. -/
def Grid.setOccupied (g : Grid) (x y : Int) : Grid := (x, y) :: g

/-- Collaborators of the filter, which are not part of `depth_filter.cpp`.

* `detect frame grid`: the points `feature_detector_->getPoints()` after
  `feature_detector_->detect(frame->pyramid_)`, and the grid after detection;
* `behind frame ftr mu`: the test `xyz_f.z() < 0.0` for the seed of feature
  `ftr` and inverse depth `mu` seen from `frame`;
* `isInFrame frame ftr mu`: the test
  `frame->cam_->isInFrame(frame->f2c(xyz_f).cast<int>())`;
* `findEpipolarMatchDirect frame ftr d_est d_min d_max`: on success the matched
  depth `z` and the matched pixel `matcher_.px_cur_`;
* `computeTau frame ftr z`: the value of `computeTau(T_ref_cur, ftr->f, z,
  px_error_angle)`. -/
structure Env where
  detect : Frame → Grid → List FeaturePoint × Grid
  behind : Frame → Feature → FReal → Bool
  isInFrame : Frame → Feature → FReal → Bool
  findEpipolarMatchDirect : Frame → Feature → FReal → FReal → FReal → Option (FReal × (Int × Int))
  computeTau : Frame → Feature → FReal → FReal

/-- State of a `DepthFilter`, with the two static counters of `Seed`, the grid
of the feature detector and the calls of `seed_converged_cb_` made so far
(`converged`, the oldest first; each call is recorded by the seed it was made
for). `thread_` tells whether the worker thread exists. -/
structure DepthFilter where
  options_ : Options
  thread_ : Bool
  thread_halt_ : Bool
  seeds_ : List Seed
  frame_queue_ : List Frame
  seeds_updating_halt_ : Bool
  new_keyframe_set_ : Bool
  new_keyframe_ : Option Frame
  new_keyframe_update_frames_ : List Frame
  new_keyframe_min_depth_ : FReal
  new_keyframe_mean_depth_ : FReal
  batch_counter : Int
  seed_counter : Int
  grid : Grid
  converged : List Seed

/-- Constructor `DepthFilter::DepthFilter`, for given options, counters and
grid. -/
def DepthFilter.new (options : Options) (batch_counter seed_counter : Int) (grid : Grid) :
    DepthFilter :=
  { options_ := options
    thread_ := false
    thread_halt_ := false
    seeds_ := []
    frame_queue_ := []
    seeds_updating_halt_ := false
    new_keyframe_set_ := false
    new_keyframe_ := none
    new_keyframe_update_frames_ := []
    new_keyframe_min_depth_ := 0
    new_keyframe_mean_depth_ := 0
    batch_counter := batch_counter
    seed_counter := seed_counter
    grid := grid
    converged := [] }

/-- Method `DepthFilter::startThread`. -/
def startThread (d : DepthFilter) : DepthFilter :=
  { d with thread_halt_ := false, thread_ := true }

/-- Method `DepthFilter::stopThread`. -/
def stopThread (d : DepthFilter) : DepthFilter :=
  if d.thread_ then
    { d with seeds_updating_halt_ := true, thread_halt_ := true, thread_ := false }
  else d

/-! ## Seed store operations -/

/-- The `for_each` over the detected points in `initializeSeeds`: one
`emplace_back` per point, each advancing `seed_counter`. -/
noncomputable def emplaceSeeds (frame : Frame) (batch_counter : Int) (depth_mean depth_min : FReal) :
    List FeaturePoint → List Seed → Int → List Seed × Int
  | [], seeds, seed_counter => (seeds, seed_counter)
  | pt :: pts, seeds, seed_counter =>
    emplaceSeeds frame batch_counter depth_mean depth_min pts
      (seeds ++ [Seed.new batch_counter seed_counter ⟨frame.ptr, (pt.x, pt.y), pt.level⟩
        depth_mean depth_min])
      (seed_counter + 1)

/-- Method `DepthFilter::initializeSeeds(frame)`. -/
noncomputable def initializeSeeds (env : Env) (d : DepthFilter) (frame : Frame) : DepthFilter :=
  let grid := frame.fts.foldl (fun g px => g.setOccupied px.1 px.2) d.grid
  let det := env.detect frame grid
  let batch_counter := d.batch_counter + 1
  let r := emplaceSeeds frame batch_counter d.new_keyframe_mean_depth_ d.new_keyframe_min_depth_
    det.1 d.seeds_ d.seed_counter
  { d with
    grid := det.2
    batch_counter := batch_counter
    seeds_ := r.1
    seed_counter := r.2
    seeds_updating_halt_ := false }

/-- The `while` loop of `removeKeyframe` from the iterator position on: the
seeds kept and the value of `n_removed`. -/
def removeKeyframeLoop (frame : Frame) : List Seed → Nat → List Seed × Nat
  | [], n_removed => ([], n_removed)
  | it :: rest, n_removed =>
    if it.ftr.frame = frame.ptr then
      removeKeyframeLoop frame rest (n_removed + 1)
    else
      let r := removeKeyframeLoop frame rest n_removed
      (it :: r.1, r.2)

/-- Method `DepthFilter::removeKeyframe(frame)`. -/
def removeKeyframe (d : DepthFilter) (frame : Frame) : DepthFilter :=
  { d with
    seeds_ := (removeKeyframeLoop frame d.seeds_ 0).1
    seeds_updating_halt_ := false }

/-- Method `DepthFilter::clearFrameQueue`: pops until the queue is empty. -/
def clearFrameQueue : List Frame → List Frame
  | [] => []
  | _ :: q => clearFrameQueue q

/-- Method `DepthFilter::reset`. -/
def reset (d : DepthFilter) : DepthFilter :=
  { d with
    seeds_ := []
    frame_queue_ := clearFrameQueue d.frame_queue_
    seeds_updating_halt_ := false }

/-- The `while` loop of `updateSeeds` from the iterator position on. The flag
`seeds_updating_halt_` is `halt`, `Seed::batch_counter` is `batch_counter`.
Result: the seeds from the iterator position on after the loop, the grid, and
the calls of `seed_converged_cb_`, in order. -/
noncomputable def updateSeedsWhile (env : Env) (options : Options) (halt : Bool)
    (batch_counter : Int) (frame : Frame) : List Seed → Grid → List Seed × Grid × List Seed
  | [], grid => ([], grid, [])
  | it :: rest, grid =>
    if halt then (it :: rest, grid, [])
    else if batch_counter - it.batch_id > options.max_n_kfs then
      updateSeedsWhile env options halt batch_counter frame rest grid
    else if env.behind frame it.ftr it.mu then
      let r := updateSeedsWhile env options halt batch_counter frame rest grid
      (it :: r.1, r.2.1, r.2.2)
    else if !env.isInFrame frame it.ftr it.mu then
      let r := updateSeedsWhile env options halt batch_counter frame rest grid
      (it :: r.1, r.2.1, r.2.2)
    else
      let z_inv_min := it.mu + FReal.sqrt it.sigma2
      let z_inv_max := FReal.max (it.mu - FReal.sqrt it.sigma2) (FReal.real (1 / 100000000))
      match env.findEpipolarMatchDirect frame it.ftr (1 / it.mu) (1 / z_inv_min) (1 / z_inv_max) with
      | none =>
        let r := updateSeedsWhile env options halt batch_counter frame rest grid
        ({ it with b := it.b + 1 } :: r.1, r.2.1, r.2.2)
      | some (z, px_cur) =>
        let tau := env.computeTau frame it.ftr z
        let tau_inverse := FReal.real (1 / 2)
          * (1 / FReal.max (FReal.real (1 / 10000000)) (z - tau) - 1 / (z + tau))
        let it1 := updateSeed (1 / z) (tau_inverse * tau_inverse) it
        let grid1 := if frame.is_keyframe then grid.setOccupied px_cur.1 px_cur.2 else grid
        if FReal.lt (FReal.sqrt it1.sigma2)
            (it1.z_range / options.seed_convergence_sigma2_thresh) then
          let r := updateSeedsWhile env options halt batch_counter frame rest grid1
          (r.1, r.2.1, it1 :: r.2.2)
        else if z_inv_min.isnan then
          updateSeedsWhile env options halt batch_counter frame rest grid1
        else
          let r := updateSeedsWhile env options halt batch_counter frame rest grid1
          (it1 :: r.1, r.2.1, r.2.2)

/-- Method `DepthFilter::updateSeeds(frame, start_seed_idx)`; the iterator is
first advanced `start_seed_idx` times (at most to the end of the list). -/
noncomputable def updateSeeds (env : Env) (d : DepthFilter) (frame : Frame)
    (start_seed_idx : Nat) : DepthFilter :=
  let r := updateSeedsWhile env d.options_ d.seeds_updating_halt_ d.batch_counter frame
    (d.seeds_.drop start_seed_idx) d.grid
  { d with
    seeds_ := d.seeds_.take start_seed_idx ++ r.1
    grid := r.2.1
    converged := d.converged ++ r.2.2 }

/-! ## Frame intake -/

/-- Method `DepthFilter::addFrame(frame)`. -/
noncomputable def addFrame (env : Env) (d : DepthFilter) (frame : Frame) : DepthFilter :=
  if d.thread_ then
    let q := if d.frame_queue_.length > 2 then d.frame_queue_.tail else d.frame_queue_
    { d with frame_queue_ := q ++ [frame], seeds_updating_halt_ := false }
  else updateSeeds env d frame 0

/-- Method `DepthFilter::addKeyframe(frame, depth_mean, depth_min)`. -/
noncomputable def addKeyframe (env : Env) (d : DepthFilter) (frame : Frame)
    (depth_mean depth_min : FReal) : DepthFilter :=
  let d := { d with new_keyframe_min_depth_ := depth_min, new_keyframe_mean_depth_ := depth_mean }
  if d.thread_ then
    { d with new_keyframe_ := some frame, new_keyframe_set_ := true, seeds_updating_halt_ := true }
  else initializeSeeds env d frame

/-- Method `DepthFilter::addKeyframe(frame, depth_mean, depth_min,
history_frames)`, the overload with history frames. -/
noncomputable def addKeyframeHistory (env : Env) (d : DepthFilter) (frame : Frame)
    (depth_mean depth_min : FReal) (history_frames : List Frame) : DepthFilter :=
  let d := { d with new_keyframe_min_depth_ := depth_min, new_keyframe_mean_depth_ := depth_mean }
  if d.thread_ then
    { d with
      new_keyframe_ := some frame
      new_keyframe_set_ := true
      seeds_updating_halt_ := true
      new_keyframe_update_frames_ := history_frames }
  else initializeSeeds env d frame

/-! ## The worker loop -/

/-- First block of the body of `updateSeedsLoop` (under `frame_queue_mut_`):
the frame the worker takes, the local `history_frames`, and the state after.
The result is `none` where the worker does not get a frame: it waits (empty
queue and no keyframe set), or the keyframe pointer is null. -/
def dequeue (d : DepthFilter) : Option (Frame × List Frame × DepthFilter) :=
  if d.new_keyframe_set_ then
    match d.new_keyframe_ with
    | some frame =>
      some (frame, d.new_keyframe_update_frames_,
        { d with
          new_keyframe_set_ := false
          seeds_updating_halt_ := false
          frame_queue_ := clearFrameQueue d.frame_queue_ })
    | none => none
  else
    match d.frame_queue_ with
    | [] => none
    | frame :: q => some (frame, [], { d with frame_queue_ := q })

/-- Second part of the body of `updateSeedsLoop`: the work done on the frame
taken. -/
noncomputable def processFrame (env : Env) (d : DepthFilter) (frame : Frame) : DepthFilter :=
  let d1 := updateSeeds env d frame 0
  if frame.is_keyframe then
    let old_seed_size := d1.seeds_.length
    let d2 := initializeSeeds env d1 frame
    let new_seed_size := d2.seeds_.length
    if new_seed_size > old_seed_size then
      d2.new_keyframe_update_frames_.foldl (fun s f => updateSeeds env s f old_seed_size) d2
    else d2
  else d1

/-- One turn of the `while` loop of `DepthFilter::updateSeedsLoop`. -/
noncomputable def updateSeedsLoop (env : Env) (d : DepthFilter) : Option DepthFilter :=
  match dequeue d with
  | none => none
  | some (frame, _, d1) => some (processFrame env d1 frame)

/-- A call made by the front end on the filter. -/
inductive ProducerOp where
  | addFrame (frame : Frame)
  | addKeyframe (frame : Frame) (depth_mean depth_min : FReal)
  | addKeyframeHistory (frame : Frame) (depth_mean depth_min : FReal) (history : List Frame)
  | removeKeyframe (frame : Frame)
  | reset

/-- Effect of one call of the front end. -/
noncomputable def ProducerOp.apply (env : Env) (d : DepthFilter) : ProducerOp → DepthFilter
  | .addFrame frame => svo.addFrame env d frame
  | .addKeyframe frame depth_mean depth_min => svo.addKeyframe env d frame depth_mean depth_min
  | .addKeyframeHistory frame depth_mean depth_min history =>
    svo.addKeyframeHistory env d frame depth_mean depth_min history
  | .removeKeyframe frame => svo.removeKeyframe d frame
  | .reset => svo.reset d

/-- Effect of a sequence of calls of the front end, in order. -/
noncomputable def runProducer (env : Env) (d : DepthFilter) (ops : List ProducerOp) : DepthFilter :=
  ops.foldl (ProducerOp.apply env) d

/-! ## Concrete states used in the examples -/

/-- Feature at pixel `(0, 0)`, level `0`, of the frame at address `ptr`. -/
def featureOf (ptr : Nat) : Feature := ⟨ptr, (0, 0), 0⟩

/-- The seed of the convergence scenario: `depth_mean = 2`, `depth_min = 1`,
so `a = b = 10`, `mu = 1/2`, `z_range = 1`, `sigma2 = 1/36`; its reference
frame is at address `1`, its batch is `1` and its id `0`. -/
noncomputable def seed0 : Seed :=
  { batch_id := 1
    id := 0
    ftr := featureOf 1
    a := FReal.real 10
    b := FReal.real 10
    mu := FReal.real (1 / 2)
    z_range := FReal.real 1
    sigma2 := FReal.real (1 / 36) }

/-- Options with `max_n_kfs = 1` and convergence threshold `200`. -/
def options1 : Options :=
  { max_n_kfs := 1, seed_convergence_sigma2_thresh := 200, verbose := false }

/-- Collaborators for which every epipolar match fails: the detector finds one
point, at pixel `(0, 0)`, in every keyframe; every seed projects in front of
and inside every frame; the matcher never finds a match. -/
def envFail : Env :=
  { detect := fun _ g => ([⟨0, 0, 0⟩], g)
    behind := fun _ _ _ => false
    isInFrame := fun _ _ _ => true
    findEpipolarMatchDirect := fun _ _ _ _ _ => none
    computeTau := fun _ _ _ => 0 }

/-- As `envFail`, with a detector that finds fifty points in every keyframe. -/
def env50 : Env :=
  { envFail with detect := fun _ g => (List.replicate 50 ⟨0, 0, 0⟩, g) }

/-- A keyframe, at address `1`. -/
def frameK1 : Frame := ⟨1, true, []⟩

/-- A second keyframe, at address `2`. -/
def frameK2 : Frame := ⟨2, true, []⟩

/-- A frame that is not a keyframe, at address `3`; used as history frame. -/
def frameH : Frame := ⟨3, false, []⟩

/-- A frame that is not a keyframe, at address `4`. -/
def frameF : Frame := ⟨4, false, []⟩

/-- The two-batch scenario: a filter without worker thread, after the keyframes
`frameK1` and `frameK2` (depth mean `2`, depth minimum `1`), fifty detected
points each. -/
noncomputable def twoBatches : DepthFilter :=
  addKeyframe env50 (addKeyframe env50 (DepthFilter.new options1 0 0 []) frameK1 2 1) frameK2 2 1

/-- A filter with `max_n_kfs = 1` and without worker thread, after the keyframes
`frameK1` and `frameK2`, one detected point each: the seed of `frameK1` has
seen one further keyframe initialisation. -/
noncomputable def agedStore : DepthFilter :=
  addKeyframe envFail (addKeyframe envFail (DepthFilter.new options1 0 0 []) frameK1 2 1)
    frameK2 2 1

/-- A filter with worker thread after `addFrame(frameF)` and then
`addKeyframe(frameK1, 2, 1)`: a keyframe is pending and one frame is queued. -/
noncomputable def pendingKeyframe : DepthFilter :=
  addKeyframe envFail (addFrame envFail (startThread (DepthFilter.new options1 0 0 [])) frameF)
    frameK1 2 1

/-- A third keyframe, at address `5`. -/
def frameK3 : Frame := ⟨5, true, []⟩

/-- The store `agedStore` after a third keyframe submitted inline: the seed of
`frameK1` has seen two further keyframe initialisations, one more than
`max_n_kfs`. -/
noncomputable def olderStore : DepthFilter :=
  addKeyframe envFail agedStore frameK3 2 1

/-- The store `agedStore` with the worker thread started, after the producer
calls `addKeyframe(frameK3, 2, 1)` and then `addFrame(frameF)`. -/
noncomputable def lostPreemption : DepthFilter :=
  runProducer envFail (startThread agedStore)
    [ProducerOp.addKeyframe frameK3 2 1, ProducerOp.addFrame frameF]

/-- Two keyframes handled by the worker, one after the other: `frameK1`
submitted with the history `[frameH]`, then `frameK2` submitted through the
overload without history. -/
noncomputable def staleHistoryRun : Option DepthFilter :=
  (updateSeedsLoop envFail
    (addKeyframeHistory envFail (startThread (DepthFilter.new options1 0 0 [])) frameK1 2 1
      [frameH])).bind
    fun d => updateSeedsLoop envFail (addKeyframe envFail d frameK2 2 1)

/-- The local `pts` of `initializeSeeds`: the points the detector returns for
`frame`, after the features of `frame` have been set occupied in the grid. -/
def detectedPoints (env : Env) (d : DepthFilter) (frame : Frame) : List FeaturePoint :=
  (env.detect frame (frame.fts.foldl (fun g px => g.setOccupied px.1 px.2) d.grid)).1

/-! ## Arithmetic of `FReal` -/

namespace FReal

@[simp] theorem real_add_real (a b : ℝ) : real a + real b = real (a + b) := rfl

@[simp] theorem real_sub_real (a b : ℝ) : real a - real b = real (a - b) := rfl

@[simp] theorem real_mul_real (a b : ℝ) : real a * real b = real (a * b) := rfl

@[simp] theorem neg_real (a : ℝ) : -real a = real (-a) := rfl

theorem real_div_real (a b : ℝ) : real a / real b = if b = 0 then nan else real (a / b) := rfl

theorem real_div_real_of_ne (a : ℝ) {b : ℝ} (h : b ≠ 0) : real a / real b = real (a / b) := by
  rw [real_div_real, if_neg h]

@[simp] theorem real_div_zero (a : ℝ) : real a / real 0 = nan := by
  rw [real_div_real, if_pos rfl]

@[simp] theorem ofNat_eq (n : Nat) : (OfNat.ofNat n : FReal) = real (n : ℝ) := rfl

@[simp] theorem add_nan (x : FReal) : x + nan = nan := by cases x <;> rfl

@[simp] theorem nan_add (x : FReal) : nan + x = nan := by cases x <;> rfl

@[simp] theorem sub_nan (x : FReal) : x - nan = nan := by cases x <;> rfl

@[simp] theorem nan_sub (x : FReal) : nan - x = nan := by cases x <;> rfl

@[simp] theorem mul_nan (x : FReal) : x * nan = nan := by cases x <;> rfl

@[simp] theorem nan_mul (x : FReal) : nan * x = nan := by cases x <;> rfl

@[simp] theorem div_nan (x : FReal) : x / nan = nan := by cases x <;> rfl

@[simp] theorem nan_div (x : FReal) : nan / x = nan := by cases x <;> rfl

theorem sqrt_real_of_nonneg {a : ℝ} (h : 0 ≤ a) : sqrt (real a) = real (Real.sqrt a) := by
  simp [sqrt, not_lt.mpr h]

@[simp] theorem exp_real (a : ℝ) : exp (real a) = real (Real.exp a) := rfl

@[simp] theorem isnan_real (a : ℝ) : (real a).isnan = false := rfl

@[simp] theorem isnan_nan : nan.isnan = true := rfl

@[simp] theorem pos_real (a : ℝ) : Pos (real a) ↔ 0 < a := Iff.rfl

@[simp] theorem not_pos_nan : ¬ Pos nan := fun h => h

theorem pos_iff (x : FReal) : Pos x ↔ ∃ a : ℝ, x = real a ∧ 0 < a := by
  cases x with
  | real a => simp
  | nan => simp

theorem isnan_eq_false_iff (x : FReal) : x.isnan = false ↔ ∃ a : ℝ, x = real a := by
  cases x with
  | real a => simp
  | nan => simp

end FReal

open FReal

/-! ## The seed update keeps the seed well formed -/

/-- First and second moment of the mixture of the two Beta posteriors, for
normalised weights `c1`, `c2`: the first moment lies strictly between `0` and
`1`, and the second strictly between its square and itself. -/
theorem beta_moments (a b c1 c2 : ℝ) (ha : 0 < a) (hb : 0 < b) (h1 : 0 < c1) (h2 : 0 < c2)
    (hc : c1 + c2 = 1) :
    let f := c1 * (a + 1) / (a + b + 1) + c2 * a / (a + b + 1)
    let e := c1 * (a + 1) * (a + 2) / ((a + b + 1) * (a + b + 2))
      + c2 * a * (a + 1) / ((a + b + 1) * (a + b + 2))
    0 < f ∧ f < 1 ∧ e < f ∧ f * f < e := by
  intro f e
  have hn1 : 0 < a + b + 1 := by linarith
  have hn2 : 0 < a + b + 2 := by linarith
  have hc2 : c2 = 1 - c1 := by linarith
  have hc1 : c1 < 1 := by linarith
  have hf : f = (a + c1) / (a + b + 1) := by
    simp only [f, hc2]; field_simp; ring
  have he : e = (a + 1) * (a + 2 * c1) / ((a + b + 1) * (a + b + 2)) := by
    simp only [e, hc2]; field_simp; ring
  refine ⟨?_, ?_, ?_, ?_⟩
  · rw [hf]; positivity
  · rw [hf, div_lt_one hn1]; linarith
  · rw [hf, he, div_lt_div_iff₀ (by positivity) hn1]
    nlinarith [mul_pos ha hb, mul_pos hb h1, mul_pos ha h2, mul_pos ha hn1, mul_pos h1 hn1]
  · rw [hf, he, div_mul_div_comm, div_lt_div_iff₀ (by positivity) (by positivity)]
    have key : (a + 1) * (a + 2 * c1) * ((a + b + 1) * (a + b + 1))
        - (a + c1) * (a + c1) * ((a + b + 1) * (a + b + 2))
        = (a + b + 1)
          * (a * b + a * (1 - c1) * (1 + c1) + b * c1 * (2 - c1) + 2 * c1 * (1 - c1)) := by
      ring
    have hpos : 0 < (a + b + 1)
        * (a * b + a * (1 - c1) * (1 + c1) + b * c1 * (2 - c1) + 2 * c1 * (1 - c1)) := by
      have : 0 < 1 - c1 := by linarith
      have : 0 < 2 - c1 := by linarith
      positivity
    linarith

/-- Value of `pdf` on real arguments with a positive standard deviation. -/
theorem pdf_real (mean sd x : ℝ) (hsd : 0 < sd) :
    pdf (real mean) (real sd) (real x)
      = real (Real.exp ((x - mean) * (-(x - mean)) / (2 * sd * sd))
          / (sd * Real.sqrt (2 * Real.pi))) := by
  have h1 : (2 * sd * sd) ≠ 0 := by positivity
  have h2 : (sd * Real.sqrt (2 * Real.pi)) ≠ 0 := by positivity
  have h3 : (0:ℝ) ≤ 2 * Real.pi := by positivity
  simp only [pdf, M_PI, ofNat_eq, real_sub_real, neg_real, real_mul_real, Nat.cast_ofNat]
  rw [real_div_real_of_ne _ h1, sqrt_real_of_nonneg h3]
  simp only [exp_real, real_mul_real]
  rw [real_div_real_of_ne _ h2]

/-- The density computed by `pdf` is a positive real number. -/
theorem pdf_pos (mean sd x : ℝ) (hsd : 0 < sd) :
    ∃ P : ℝ, 0 < P ∧ pdf (real mean) (real sd) (real x) = real P :=
  ⟨_, by positivity, pdf_real mean sd x hsd⟩

/-- Result of `updateSeed` on a seed with real fields, `a, b, sigma2, z_range`
positive, and a positive measurement variance: no operation leaves the reals,
the new `a` and `b` are positive, and the new `mu` and `sigma2` are the mixture
of the fused estimate (weight `c1`) and the old one (weight `c2`). -/
theorem updateSeed_real (bid id : Int) (ftr : Feature) (a b mu z sig x tau2 : ℝ)
    (ha : 0 < a) (hb : 0 < b) (hsig : 0 < sig) (hz : 0 < z) (htau : 0 < tau2) :
    ∃ c1 c2 a1 b1 : ℝ, 0 < c1 ∧ 0 < c2 ∧ c1 + c2 = 1 ∧ 0 < a1 ∧ 0 < b1 ∧
      updateSeed (real x) (real tau2) ⟨bid, id, ftr, real a, real b, real mu, real z, real sig⟩
        = ⟨bid, id, ftr, real a1, real b1,
            real (c1 * (1 / (1 / sig + 1 / tau2) * (mu / sig + x / tau2)) + c2 * mu), real z,
            real (c1 * (1 / (1 / sig + 1 / tau2)
                  + 1 / (1 / sig + 1 / tau2) * (mu / sig + x / tau2)
                    * (1 / (1 / sig + 1 / tau2) * (mu / sig + x / tau2)))
              + c2 * (sig + mu * mu)
              - (c1 * (1 / (1 / sig + 1 / tau2) * (mu / sig + x / tau2)) + c2 * mu)
                * (c1 * (1 / (1 / sig + 1 / tau2) * (mu / sig + x / tau2)) + c2 * mu))⟩ := by
  have hsd : 0 < Real.sqrt (sig + tau2) := Real.sqrt_pos.mpr (by linarith)
  have h0 : (0:ℝ) ≤ sig + tau2 := by linarith
  obtain ⟨P, hP, hpdf⟩ := pdf_pos mu (Real.sqrt (sig + tau2)) x hsd
  have hab : a + b ≠ 0 := by positivity
  have hC1 : real a / real (a + b) * real P = real (a / (a + b) * P) := by
    rw [real_div_real_of_ne _ hab]; rfl
  have hC2 : real b / real (a + b) * real 1 / real z = real (b / (a + b) * 1 / z) := by
    rw [real_div_real_of_ne _ hab, real_mul_real, real_div_real_of_ne _ hz.ne']
  have hC1p : 0 < a / (a + b) * P := by positivity
  have hC2p : 0 < b / (a + b) * 1 / z := by positivity
  have hs2 : real 1 / (real 1 / real sig + real 1 / real tau2)
      = real (1 / (1 / sig + 1 / tau2)) := by
    have : (1 / sig + 1 / tau2) ≠ 0 := by positivity
    rw [real_div_real_of_ne _ hsig.ne', real_div_real_of_ne _ htau.ne', real_add_real,
      real_div_real_of_ne _ this]
  have hm : real mu / real sig + real x / real tau2 = real (mu / sig + x / tau2) := by
    rw [real_div_real_of_ne _ hsig.ne', real_div_real_of_ne _ htau.ne', real_add_real]
  simp only [updateSeed, real_add_real, sqrt_real_of_nonneg h0, isnan_real, hpdf,
    ofNat_eq, Nat.cast_ofNat, Nat.cast_one, hC1, hC2, hs2, hm]
  generalize a / (a + b) * P = C1r at hC1p ⊢
  generalize b / (a + b) * 1 / z = C2r at hC2p ⊢
  have hnc : C1r + C2r ≠ 0 := by positivity
  rw [real_div_real_of_ne _ hnc, real_div_real_of_ne _ hnc]
  have hc1 : 0 < C1r / (C1r + C2r) := by positivity
  have hc2 : 0 < C2r / (C1r + C2r) := by positivity
  have hc : C1r / (C1r + C2r) + C2r / (C1r + C2r) = 1 := by field_simp
  generalize C1r / (C1r + C2r) = c1 at hc1 hc ⊢
  generalize C2r / (C1r + C2r) = c2 at hc2 hc ⊢
  obtain ⟨hf0, hf1, hef, hffe⟩ := beta_moments a b c1 c2 ha hb hc1 hc2 hc
  have hn1 : a + b + 1 ≠ 0 := by positivity
  have hn2 : (a + b + 1) * (a + b + 2) ≠ 0 := by positivity
  simp only [real_mul_real, real_add_real, real_div_real_of_ne _ hn1, real_div_real_of_ne _ hn2]
  generalize c1 * (a + 1) / (a + b + 1) + c2 * a / (a + b + 1) = f at hf0 hf1 hef hffe ⊢
  generalize c1 * (a + 1) * (a + 2) / ((a + b + 1) * (a + b + 2))
      + c2 * a * (a + 1) / ((a + b + 1) * (a + b + 2)) = e at hef hffe ⊢
  have hd : f - e / f < 0 := by
    have : f - e / f = (f * f - e) / f := by field_simp
    rw [this]
    exact div_neg_of_neg_of_pos (by linarith) hf0
  have ha1 : 0 < (e - f) / (f - e / f) := div_pos_of_neg_of_neg (by linarith) hd
  have hb1 : 0 < (e - f) / (f - e / f) * (1 - f) / f := by
    have : 0 < 1 - f := by linarith
    positivity
  refine ⟨c1, c2, (e - f) / (f - e / f), (e - f) / (f - e / f) * (1 - f) / f,
    hc1, hc2, hc, ha1, hb1, ?_⟩
  simp only [real_sub_real, real_div_real_of_ne _ hf0.ne', real_div_real_of_ne _ hd.ne,
    real_mul_real]
  simp

/-- The variance of the mixture of the fused and the old estimate is
positive. -/
theorem mixture_variance_pos (c1 c2 s2 m sig mu : ℝ) (h1 : 0 < c1) (h2 : 0 < c2)
    (hc : c1 + c2 = 1) (hs2 : 0 < s2) (hsig : 0 < sig) :
    0 < c1 * (s2 + m * m) + c2 * (sig + mu * mu) - (c1 * m + c2 * mu) * (c1 * m + c2 * mu) := by
  have hc2 : c2 = 1 - c1 := by linarith
  have key : c1 * (s2 + m * m) + c2 * (sig + mu * mu) - (c1 * m + c2 * mu) * (c1 * m + c2 * mu)
      = c1 * s2 + c2 * sig + c1 * c2 * ((m - mu) * (m - mu)) := by
    subst hc2; ring
  rw [key]
  have : 0 ≤ c1 * c2 * ((m - mu) * (m - mu)) :=
    mul_nonneg (mul_pos h1 h2).le (mul_self_nonneg _)
  have := mul_pos h1 hs2
  have := mul_pos h2 hsig
  linarith

/-- C1 (as amended). For every seed with `a > 0`, `b > 0`, `sigma2 > 0`,
`z_range > 0` and a real `mu`, every real measurement `x` and every measurement
variance `tau2 > 0`: `updateSeed` does not take its NaN early return, and the
seed after `updateSeed(x, tau2, seed)` again has `a > 0`, `b > 0`,
`sigma2 > 0` and a real `mu`; `z_range` is unchanged. -/
theorem updateSeed_keeps_invariant (seed : Seed) (x tau2 : ℝ)
    (ha : seed.a.Pos) (hb : seed.b.Pos) (hsig : seed.sigma2.Pos) (hz : seed.z_range.Pos)
    (hmu : seed.mu.isnan = false) (htau : 0 < tau2) :
    (FReal.sqrt (seed.sigma2 + real tau2)).isnan = false
      ∧ (updateSeed (real x) (real tau2) seed).a.Pos
      ∧ (updateSeed (real x) (real tau2) seed).b.Pos
      ∧ (updateSeed (real x) (real tau2) seed).sigma2.Pos
      ∧ (updateSeed (real x) (real tau2) seed).mu.isnan = false
      ∧ (updateSeed (real x) (real tau2) seed).z_range = seed.z_range := by
  obtain ⟨bid, id, ftr, a, b, mu, z, sig⟩ := seed
  obtain ⟨a, rfl, ha⟩ := (pos_iff _).mp ha
  obtain ⟨b, rfl, hb⟩ := (pos_iff _).mp hb
  obtain ⟨sig, rfl, hsig⟩ := (pos_iff _).mp hsig
  obtain ⟨z, rfl, hz⟩ := (pos_iff _).mp hz
  obtain ⟨mu, rfl⟩ := (isnan_eq_false_iff _).mp hmu
  obtain ⟨c1, c2, a1, b1, h1, h2, hc, ha1, hb1, h⟩ :=
    updateSeed_real bid id ftr a b mu z sig x tau2 ha hb hsig hz htau
  have h0 : (0:ℝ) ≤ sig + tau2 := by linarith
  have hs2 : 0 < 1 / (1 / sig + 1 / tau2) := by positivity
  rw [h]
  refine ⟨?_, ha1, hb1, ?_, rfl, rfl⟩
  · simp only [real_add_real, sqrt_real_of_nonneg h0, isnan_real]
  · exact mixture_variance_pos c1 c2 _ _ sig mu h1 h2 hc hs2 hsig

/-- Witness of C1: the seed of the convergence scenario, measured at `x = 1/2`
with `tau2 = 10^-6`. -/
theorem updateSeed_keeps_invariant_witness :
    (FReal.sqrt (seed0.sigma2 + real (1 / 1000000))).isnan = false
      ∧ (updateSeed (real (1 / 2)) (real (1 / 1000000)) seed0).a.Pos
      ∧ (updateSeed (real (1 / 2)) (real (1 / 1000000)) seed0).b.Pos
      ∧ (updateSeed (real (1 / 2)) (real (1 / 1000000)) seed0).sigma2.Pos
      ∧ (updateSeed (real (1 / 2)) (real (1 / 1000000)) seed0).mu.isnan = false
      ∧ (updateSeed (real (1 / 2)) (real (1 / 1000000)) seed0).z_range = seed0.z_range :=
  updateSeed_keeps_invariant seed0 (1 / 2) (1 / 1000000)
    (by simp [seed0]) (by simp [seed0]) (by simp [seed0]) (by simp [seed0]) (by simp [seed0])
    (by norm_num)

/-- C1 as stated fails at `tau2 = 0`: on the seed of the convergence scenario
(`a = b = 10`, `mu = 1/2`, `z_range = 1`, `sigma2 = 1/36`) with `x = 1/2` and
`tau2 = 0` the NaN early return is not taken (`sqrt(sigma2 + 0)` is real), and
the `sigma2` stored by `updateSeed` is not a positive real: `1./tau2` divides
by zero and `m = s2 * (mu/sigma2 + x/tau2)` has no value. -/
theorem updateSeed_zero_variance_counterexample :
    seed0.a.Pos ∧ seed0.b.Pos ∧ seed0.sigma2.Pos ∧ seed0.z_range.Pos
      ∧ (0:ℝ) ≤ 0
      ∧ (FReal.sqrt (seed0.sigma2 + real 0)).isnan = false
      ∧ ¬ (updateSeed (real (1 / 2)) (real 0) seed0).sigma2.Pos := by
  have h0 : (0:ℝ) ≤ 1 / 36 + 0 := by norm_num
  refine ⟨by simp [seed0], by simp [seed0], by simp [seed0], by simp [seed0], le_refl _, ?_, ?_⟩
  · simp only [seed0, real_add_real, sqrt_real_of_nonneg h0, isnan_real]
  · simp only [updateSeed, seed0, real_add_real, sqrt_real_of_nonneg h0, isnan_real,
      real_div_zero, add_nan, div_nan, nan_mul, mul_nan, nan_add, nan_sub, sub_nan]
    simp

/-! ## The seed store -/

/-- The loop of `removeKeyframe` keeps the seeds of the other frames, in order, and
counts the seeds of `frame`. -/
theorem removeKeyframeLoop_eq (frame : Frame) (seeds : List Seed) (n : Nat) :
    removeKeyframeLoop frame seeds n
      = (seeds.filter (fun s => decide (s.ftr.frame ≠ frame.ptr)),
         n + seeds.countP (fun s => decide (s.ftr.frame = frame.ptr))) := by
  induction seeds generalizing n with
  | nil => simp [removeKeyframeLoop]
  | cons s rest ih =>
    by_cases h : s.ftr.frame = frame.ptr
    · simp [removeKeyframeLoop, h, ih, Nat.add_assoc, Nat.add_comm]
    · simp [removeKeyframeLoop, h, ih]

/-- The function `clearFrameQueue` empties the queue. -/
theorem clearFrameQueue_eq (q : List Frame) : clearFrameQueue q = [] := by
  induction q with
  | nil => rfl
  | cons f q ih => simpa [clearFrameQueue] using ih

/-- The loop of `initializeSeeds` appends one seed per point, in order, with
consecutive ids. -/
theorem emplaceSeeds_eq (frame : Frame) (bc : Int) (dm dmin : FReal) (pts : List FeaturePoint)
    (seeds : List Seed) (sc : Int) :
    emplaceSeeds frame bc dm dmin pts seeds sc
      = (seeds ++ (pts.enum.map fun p =>
            Seed.new bc (sc + (p.1 : Int)) ⟨frame.ptr, (p.2.x, p.2.y), p.2.level⟩ dm dmin),
         sc + (pts.length : Int)) := by
  induction pts generalizing seeds sc with
  | nil => simp [emplaceSeeds]
  | cons pt pts ih =>
    rw [emplaceSeeds, ih]
    simp only [List.enum_cons, List.map_cons, List.append_assoc, List.singleton_append,
      List.length_cons, Nat.cast_add, Nat.cast_one, Prod.mk.injEq]
    constructor
    · congr 1
      simp only [Nat.cast_zero, add_zero, List.cons.injEq, true_and]
      rw [← List.map_fst_add_enum_eq_enumFrom, List.map_map]
      apply List.map_congr_left
      intro p _
      simp only [Function.comp_apply, Prod.map_fst, Prod.map_snd, id_eq, Nat.cast_add,
        Nat.cast_one]
      congr 1
      ring
    · ring

/-- Seed store after `initializeSeeds`. -/
theorem initializeSeeds_seeds (env : Env) (d : DepthFilter) (frame : Frame) :
    (initializeSeeds env d frame).seeds_
      = d.seeds_ ++ ((env.detect frame
            (frame.fts.foldl (fun g px => g.setOccupied px.1 px.2) d.grid)).1.enum.map fun p =>
          Seed.new (d.batch_counter + 1) (d.seed_counter + (p.1 : Int))
            ⟨frame.ptr, (p.2.x, p.2.y), p.2.level⟩
            d.new_keyframe_mean_depth_ d.new_keyframe_min_depth_) := by
  simp [initializeSeeds, emplaceSeeds_eq]

/-- The seeds appended by `initializeSeeds` belong to `frame`, one per detected
point. -/
theorem initializeSeeds_appends (env : Env) (d : DepthFilter) (frame : Frame) :
    ∃ B : List Seed, (initializeSeeds env d frame).seeds_ = d.seeds_ ++ B
      ∧ B.length = (env.detect frame
          (frame.fts.foldl (fun g px => g.setOccupied px.1 px.2) d.grid)).1.length
      ∧ ∀ s ∈ B, s.ftr.frame = frame.ptr := by
  refine ⟨_, initializeSeeds_seeds env d frame, by simp, ?_⟩
  intro s hs
  simp only [List.mem_map] at hs
  obtain ⟨p, _, rfl⟩ := hs
  rfl

/-- Without worker thread `addKeyframe` is `initializeSeeds` with the depths
stored. -/
theorem addKeyframe_inline (env : Env) (d : DepthFilter) (frame : Frame) (dm dmin : FReal)
    (h : d.thread_ = false) :
    addKeyframe env d frame dm dmin
      = initializeSeeds env
          { d with new_keyframe_min_depth_ := dmin, new_keyframe_mean_depth_ := dm } frame := by
  simp [addKeyframe, h]

/-- The function `initializeSeeds` does not start or stop the worker. -/
theorem initializeSeeds_thread (env : Env) (d : DepthFilter) (frame : Frame) :
    (initializeSeeds env d frame).thread_ = d.thread_ := rfl

/-- Seeds appended by `addKeyframe` without worker thread. -/
theorem addKeyframe_inline_appends (env : Env) (d : DepthFilter) (frame : Frame) (dm dmin : FReal)
    (h : d.thread_ = false) :
    (addKeyframe env d frame dm dmin).thread_ = false
      ∧ ∃ B : List Seed, (addKeyframe env d frame dm dmin).seeds_ = d.seeds_ ++ B
        ∧ B.length = (env.detect frame
            (frame.fts.foldl (fun g px => g.setOccupied px.1 px.2) d.grid)).1.length
        ∧ ∀ s ∈ B, s.ftr.frame = frame.ptr := by
  rw [addKeyframe_inline env d frame dm dmin h]
  exact ⟨h, initializeSeeds_appends env _ frame⟩

/-- The store of the two-batch scenario: fifty seeds of the frame at address `1`
followed by fifty seeds of the frame at address `2`. -/
theorem twoBatches_seeds :
    ∃ A B : List Seed, twoBatches.seeds_ = A ++ B ∧ A.length = 50 ∧ B.length = 50
      ∧ (∀ s ∈ A, s.ftr.frame = 1) ∧ (∀ s ∈ B, s.ftr.frame = 2) := by
  obtain ⟨ht, A, hA, hlA, hfA⟩ :=
    addKeyframe_inline_appends env50 (DepthFilter.new options1 0 0 []) frameK1 2 1 rfl
  obtain ⟨_, B, hB, hlB, hfB⟩ :=
    addKeyframe_inline_appends env50
      (addKeyframe env50 (DepthFilter.new options1 0 0 []) frameK1 2 1) frameK2 2 1 ht
  refine ⟨A, B, ?_, ?_, ?_, hfA, hfB⟩
  · rw [twoBatches, hB, hA]
    rfl
  · rw [hlA]; rfl
  · rw [hlB]; rfl

/-- C2. After `removeKeyframe(frame)` the store is the previous store without
the seeds whose reference frame is `frame`, the others unchanged and in their
order (`List.filter`); no remaining seed references `frame`; `n_removed` is the
number of seeds that referenced `frame`, and with the remaining seeds it adds
up to the previous size. In the two-batch scenario (`twoBatches`, 100 seeds)
removing the first keyframe erases exactly 50 seeds and every surviving seed
references the second keyframe. -/
theorem removeKeyframe_postcondition (d : DepthFilter) (frame : Frame) :
    (removeKeyframe d frame).seeds_
        = d.seeds_.filter (fun s => decide (s.ftr.frame ≠ frame.ptr))
      ∧ (∀ s ∈ (removeKeyframe d frame).seeds_, s.ftr.frame ≠ frame.ptr)
      ∧ (removeKeyframeLoop frame d.seeds_ 0).2
        = d.seeds_.countP (fun s => decide (s.ftr.frame = frame.ptr))
      ∧ (removeKeyframe d frame).seeds_.length + (removeKeyframeLoop frame d.seeds_ 0).2
        = d.seeds_.length
      ∧ twoBatches.seeds_.length = 100
      ∧ (removeKeyframeLoop frameK1 twoBatches.seeds_ 0).2 = 50
      ∧ (removeKeyframe twoBatches frameK1).seeds_.length = 50
      ∧ (∀ s ∈ (removeKeyframe twoBatches frameK1).seeds_, s.ftr.frame = frameK2.ptr) := by
  have hfilter : ∀ (dd : DepthFilter) (fr : Frame), (removeKeyframe dd fr).seeds_
      = dd.seeds_.filter (fun s => decide (s.ftr.frame ≠ fr.ptr)) := by
    intro dd fr
    simp [removeKeyframe, removeKeyframeLoop_eq]
  obtain ⟨A, B, hAB, hA, hB, hA1, hB2⟩ := twoBatches_seeds
  have hfA : A.filter (fun s => decide (s.ftr.frame ≠ frameK1.ptr)) = [] := by
    rw [List.filter_eq_nil_iff]
    intro s hs
    simp [hA1 s hs, frameK1]
  have hfB : B.filter (fun s => decide (s.ftr.frame ≠ frameK1.ptr)) = B := by
    rw [List.filter_eq_self]
    intro s hs
    simp [hB2 s hs, frameK1]
  have hcA : A.countP (fun s => decide (s.ftr.frame = frameK1.ptr)) = A.length := by
    rw [List.countP_eq_length]
    intro s hs
    simp [hA1 s hs, frameK1]
  have hcB : B.countP (fun s => decide (s.ftr.frame = frameK1.ptr)) = 0 := by
    rw [List.countP_eq_zero]
    intro s hs
    simp [hB2 s hs, frameK1]
  refine ⟨hfilter d frame, ?_, ?_, ?_, ?_, ?_, ?_, ?_⟩
  · intro s hs
    rw [hfilter, List.mem_filter] at hs
    simpa using hs.2
  · simp [removeKeyframeLoop_eq]
  · rw [hfilter, removeKeyframeLoop_eq]
    simp only [zero_add]
    induction d.seeds_ with
    | nil => rfl
    | cons s rest ih =>
      by_cases h : s.ftr.frame = frame.ptr
      · simp [h] at ih ⊢
        omega
      · simp [h] at ih ⊢
        omega
  · rw [hAB, List.length_append, hA, hB]
  · rw [removeKeyframeLoop_eq, hAB, List.countP_append, hcA, hcB, hA]
  · rw [hfilter, hAB, List.filter_append, hfA, hfB, List.nil_append, hB]
  · rw [hfilter, hAB, List.filter_append, hfA, hfB, List.nil_append]
    exact hB2

/-- C5. The function `initializeSeeds` increments the batch counter exactly
once, advances the seed counter by the number of detected points, and leaves
every existing seed unchanged and in place; it appends exactly one seed per
detected point, in detection order, the `i`-th with id `seed_counter + i`, all
with `batch_id` equal to the incremented counter, `a = b = 10`,
`mu = 1/depth_mean`, `z_range = 1/depth_min` and `sigma2 = z_range^2/36`. -/
theorem initializeSeeds_batch (env : Env) (d : DepthFilter) (frame : Frame) :
    (initializeSeeds env d frame).batch_counter = d.batch_counter + 1
      ∧ (initializeSeeds env d frame).seed_counter
        = d.seed_counter + ((detectedPoints env d frame).length : Int)
      ∧ (initializeSeeds env d frame).seeds_.length
        = d.seeds_.length + (detectedPoints env d frame).length
      ∧ (initializeSeeds env d frame).seeds_
        = d.seeds_ ++ (detectedPoints env d frame).enum.map fun p =>
            { batch_id := d.batch_counter + 1
              id := d.seed_counter + (p.1 : Int)
              ftr := ⟨frame.ptr, (p.2.x, p.2.y), p.2.level⟩
              a := 10
              b := 10
              mu := 1 / d.new_keyframe_mean_depth_
              z_range := 1 / d.new_keyframe_min_depth_
              sigma2 := 1 / d.new_keyframe_min_depth_ * (1 / d.new_keyframe_min_depth_) / 36 } := by
  refine ⟨rfl, ?_, ?_, ?_⟩
  · simp [initializeSeeds, emplaceSeeds_eq, detectedPoints]
  · rw [initializeSeeds_seeds]
    simp [detectedPoints]
  · rw [initializeSeeds_seeds]
    rfl

/-! ## The frame intake -/

/-- Effect of `addFrame` on the queue when the worker thread exists. -/
theorem addFrame_thread (env : Env) (d : DepthFilter) (f : Frame) (h : d.thread_ = true) :
    (addFrame env d f).thread_ = true
      ∧ (addFrame env d f).frame_queue_
        = (if d.frame_queue_.length > 2 then d.frame_queue_.tail else d.frame_queue_) ++ [f] := by
  simp [addFrame, h]

/-- Queue after a sequence of `addFrame` calls from an empty queue: the last
three frames (all of them when there are fewer). -/
theorem foldl_addFrame_queue (env : Env) (d : DepthFilter) (fs : List Frame)
    (hthread : d.thread_ = true) (hq : d.frame_queue_ = []) :
    (fs.foldl (addFrame env) d).thread_ = true
      ∧ (fs.foldl (addFrame env) d).frame_queue_ = fs.drop (fs.length - 3) := by
  induction fs using List.reverseRecOn with
  | nil => simp [hthread, hq]
  | append_singleton fs f ih =>
    obtain ⟨ht, hqueue⟩ := ih
    rw [List.foldl_append, List.foldl_cons, List.foldl_nil]
    obtain ⟨h1, h2⟩ := addFrame_thread env _ f ht
    refine ⟨h1, ?_⟩
    rw [h2, hqueue]
    by_cases hlen : fs.length ≤ 2
    · have h0 : fs.length - 3 = 0 := by omega
      have h0' : (fs ++ [f]).length - 3 = 0 := by simp; omega
      rw [h0, h0']
      simp
      omega
    · have hlen3 : 3 ≤ fs.length := by omega
      have hd : (List.drop (fs.length - 3) fs).length > 2 := by simp; omega
      rw [if_pos hd, List.tail_drop]
      have : (fs ++ [f]).length - 3 = fs.length - 3 + 1 := by simp; omega
      rw [this, List.drop_append_of_le_length (by omega)]

/-- C3. With the worker thread started and not dequeuing, after any sequence
`fs` of `addFrame` calls from an empty queue the queue holds exactly the last
`min (length fs) 3` frames of `fs` in submission order, and after every prefix
of the sequence it holds at most 3 frames. -/
theorem addFrame_queue_bound (env : Env) (d : DepthFilter) (fs : List Frame)
    (hthread : d.thread_ = true) (hq : d.frame_queue_ = []) :
    (fs.foldl (addFrame env) d).frame_queue_ = fs.drop (fs.length - 3)
      ∧ (fs.foldl (addFrame env) d).frame_queue_.length = min fs.length 3
      ∧ ∀ k : Nat, ((fs.take k).foldl (addFrame env) d).frame_queue_.length ≤ 3 := by
  refine ⟨(foldl_addFrame_queue env d fs hthread hq).2, ?_, ?_⟩
  · rw [(foldl_addFrame_queue env d fs hthread hq).2, List.length_drop]
    omega
  · intro k
    rw [(foldl_addFrame_queue env d (fs.take k) hthread hq).2, List.length_drop]
    omega

/-- Witness of C3: five frames submitted; the last three are queued. -/
theorem addFrame_queue_bound_witness :
    ([frameF, frameH, frameF, frameH, frameF].foldl (addFrame envFail)
        (startThread (DepthFilter.new options1 0 0 []))).frame_queue_
        = [frameF, frameH, frameF]
      ∧ ([frameF, frameH, frameF, frameH, frameF].foldl (addFrame envFail)
        (startThread (DepthFilter.new options1 0 0 []))).frame_queue_.length = 3
      ∧ ∀ k : Nat, (([frameF, frameH, frameF, frameH, frameF].take k).foldl (addFrame envFail)
        (startThread (DepthFilter.new options1 0 0 []))).frame_queue_.length ≤ 3 :=
  addFrame_queue_bound envFail (startThread (DepthFilter.new options1 0 0 []))
    [frameF, frameH, frameF, frameH, frameF] rfl rfl

/-- C4. When the worker wakes (the queue is not empty or a keyframe is set;
a set keyframe has a non-null pointer), the dequeue step yields a frame. If a
keyframe is pending it yields that keyframe with its history, clears
`new_keyframe_set_` and `seeds_updating_halt_` and leaves the queue empty,
nothing else changed: the queued frames are discarded. If no keyframe is
pending it yields the front of the queue and leaves the rest of the queue in
order, nothing else changed. -/
theorem dequeue_priority (d : DepthFilter)
    (hwake : ¬ (d.frame_queue_ = [] ∧ d.new_keyframe_set_ = false))
    (hptr : d.new_keyframe_set_ = true → d.new_keyframe_.isSome = true) :
    ∃ (frame : Frame) (history : List Frame) (d1 : DepthFilter),
      dequeue d = some (frame, history, d1)
        ∧ (d.new_keyframe_set_ = true →
            d.new_keyframe_ = some frame
              ∧ history = d.new_keyframe_update_frames_
              ∧ d1 = { d with
                  new_keyframe_set_ := false
                  seeds_updating_halt_ := false
                  frame_queue_ := [] })
        ∧ (d.new_keyframe_set_ = false →
            d.frame_queue_ = frame :: d1.frame_queue_
              ∧ d1 = { d with frame_queue_ := d.frame_queue_.tail }) := by
  by_cases hk : d.new_keyframe_set_ = true
  · have hs := hptr hk
    obtain ⟨kf, hkf⟩ := Option.isSome_iff_exists.mp hs
    refine ⟨kf, d.new_keyframe_update_frames_,
      { d with new_keyframe_set_ := false, seeds_updating_halt_ := false, frame_queue_ := [] },
      ?_, ?_, ?_⟩
    · simp [dequeue, hk, hkf, clearFrameQueue_eq]
    · intro _
      exact ⟨hkf, rfl, rfl⟩
    · intro h
      rw [hk] at h
      exact absurd h (by simp)
  · have hk' : d.new_keyframe_set_ = false := by simpa using hk
    have hne : d.frame_queue_ ≠ [] := fun h => hwake ⟨h, hk'⟩
    obtain ⟨f, q, hq⟩ := List.exists_cons_of_ne_nil hne
    refine ⟨f, [], { d with frame_queue_ := q }, ?_, ?_, ?_⟩
    · simp [dequeue, hk', hq]
    · intro h
      exact absurd h hk
    · intro _
      exact ⟨hq, by rw [hq]; rfl⟩

/-- Witness of C4: a state with a queued frame and a pending keyframe. -/
theorem dequeue_priority_witness :
    ∃ (frame : Frame) (history : List Frame) (d1 : DepthFilter),
      dequeue pendingKeyframe = some (frame, history, d1)
        ∧ (pendingKeyframe.new_keyframe_set_ = true →
            pendingKeyframe.new_keyframe_ = some frame
              ∧ history = pendingKeyframe.new_keyframe_update_frames_
              ∧ d1 = { pendingKeyframe with
                  new_keyframe_set_ := false
                  seeds_updating_halt_ := false
                  frame_queue_ := [] })
        ∧ (pendingKeyframe.new_keyframe_set_ = false →
            pendingKeyframe.frame_queue_ = frame :: d1.frame_queue_
              ∧ d1 = { pendingKeyframe with frame_queue_ := pendingKeyframe.frame_queue_.tail }) :=
  dequeue_priority pendingKeyframe
    (by simp [pendingKeyframe, addKeyframe, addFrame, startThread, DepthFilter.new])
    (by simp [pendingKeyframe, addKeyframe, addFrame, startThread, DepthFilter.new])

/-- C10. The function `reset` leaves the seed store and the queue empty, and a
second `reset` leaves the state as the first one did. -/
theorem reset_idempotent (d : DepthFilter) :
    (reset d).seeds_ = [] ∧ (reset d).frame_queue_ = [] ∧ reset (reset d) = reset d := by
  refine ⟨rfl, clearFrameQueue_eq _, ?_⟩
  simp [reset, clearFrameQueue_eq]

/-! ## The pass over the seeds -/

/-- With `seeds_updating_halt_` set the loop of `updateSeeds` returns at once. -/
theorem updateSeedsWhile_halt (env : Env) (o : Options) (bc : Int) (frame : Frame)
    (seeds : List Seed) (grid : Grid) :
    updateSeedsWhile env o true bc frame seeds grid = (seeds, grid, []) := by
  cases seeds with
  | nil => rfl
  | cons s rest => simp [updateSeedsWhile]

/-- With `seeds_updating_halt_` set `updateSeeds` changes nothing. -/
theorem updateSeeds_halt (env : Env) (d : DepthFilter) (frame : Frame) (k : Nat)
    (h : d.seeds_updating_halt_ = true) : updateSeeds env d frame k = d := by
  obtain ⟨o, th, thh, seeds, q, halt, ks, kf, hist, dmin, dm, bc, sc, grid, conv⟩ := d
  simp only at h
  subst h
  simp [updateSeeds, updateSeedsWhile_halt]

/-- The loop of `updateSeeds` when every match fails: the seeds older than
`max_n_kfs` batches are erased, the others get `b + 1`. -/
theorem updateSeedsWhile_envFail (o : Options) (bc : Int) (frame : Frame) (seeds : List Seed)
    (grid : Grid) :
    updateSeedsWhile envFail o false bc frame seeds grid
      = ((seeds.filter fun s => decide (bc - s.batch_id ≤ o.max_n_kfs)).map
            (fun s => { s with b := s.b + 1 }), grid, []) := by
  induction seeds with
  | nil => simp [updateSeedsWhile]
  | cons s rest ih =>
    rw [updateSeedsWhile, ih]
    by_cases h : bc - s.batch_id ≤ o.max_n_kfs
    · have h1 : ¬ (bc - s.batch_id > o.max_n_kfs) := not_lt.mpr h
      rw [List.filter_cons_of_pos (by simpa using h)]
      simp only [Bool.false_eq_true, if_false, h1, envFail, Bool.not_true, List.map_cons]
    · have h1 : bc - s.batch_id > o.max_n_kfs := not_le.mp h
      rw [List.filter_cons_of_neg (by simpa using h)]
      simp only [Bool.false_eq_true, if_false, h1, if_true]

/-- The fields of `agedStore`: two seeds, of batches `1` and `2`, and batch
counter `2`. -/
theorem agedStore_eq :
    agedStore.seeds_ = [Seed.new 1 0 ⟨1, (0, 0), 0⟩ 2 1, Seed.new 2 1 ⟨2, (0, 0), 0⟩ 2 1]
      ∧ agedStore.batch_counter = 2
      ∧ agedStore.options_ = options1
      ∧ agedStore.seeds_updating_halt_ = false
      ∧ agedStore.grid = []
      ∧ agedStore.converged = []
      ∧ agedStore.seed_counter = 2
      ∧ agedStore.new_keyframe_update_frames_ = []
      ∧ agedStore.frame_queue_ = [] := by
  simp [agedStore, addKeyframe, initializeSeeds, emplaceSeeds, DepthFilter.new, envFail,
    frameK1, frameK2]

/-- The fields of `olderStore`: three seeds and batch counter `3`. -/
theorem olderStore_eq :
    olderStore.seeds_ = [Seed.new 1 0 ⟨1, (0, 0), 0⟩ 2 1, Seed.new 2 1 ⟨2, (0, 0), 0⟩ 2 1,
        Seed.new 3 2 ⟨5, (0, 0), 0⟩ 2 1]
      ∧ olderStore.batch_counter = 3
      ∧ olderStore.options_ = options1
      ∧ olderStore.seeds_updating_halt_ = false := by
  simp [olderStore, agedStore, addKeyframe, initializeSeeds, emplaceSeeds, DepthFilter.new, envFail,
    frameK1, frameK2, frameK3]

/-- Seed store after a complete pass from index `0` when every match fails. -/
theorem updateSeeds_envFail (d : DepthFilter) (frame : Frame)
    (h : d.seeds_updating_halt_ = false) :
    (updateSeeds envFail d frame 0).seeds_
      = (d.seeds_.filter fun s => decide (d.batch_counter - s.batch_id ≤ d.options_.max_n_kfs)).map
          (fun s => { s with b := s.b + 1 }) := by
  simp [updateSeeds, h, updateSeedsWhile_envFail]

/-- State after a complete pass from index `k` when every match fails. -/
theorem updateSeeds_envFail_state (d : DepthFilter) (frame : Frame) (k : Nat)
    (h : d.seeds_updating_halt_ = false) :
    updateSeeds envFail d frame k
      = { d with
          seeds_ := d.seeds_.take k
            ++ ((d.seeds_.drop k).filter fun s =>
                decide (d.batch_counter - s.batch_id ≤ d.options_.max_n_kfs)).map
              (fun s => { s with b := s.b + 1 }) } := by
  simp [updateSeeds, h, updateSeedsWhile_envFail]

/-- On an empty store `updateSeeds` changes nothing. -/
theorem updateSeeds_nil (env : Env) (d : DepthFilter) (frame : Frame) (k : Nat)
    (h : d.seeds_ = []) : updateSeeds env d frame k = d := by
  obtain ⟨o, th, thh, seeds, q, halt, ks, kf, hist, dmin, dm, bc, sc, grid, conv⟩ := d
  simp only at h
  subst h
  simp [updateSeeds, updateSeedsWhile]

/-! ## Age of the seeds -/

/-- The calls of the front end neither start nor stop the worker. -/
theorem runProducer_thread (env : Env) (d : DepthFilter) (ops : List ProducerOp)
    (h : d.thread_ = true) : (runProducer env d ops).thread_ = true := by
  induction ops generalizing d with
  | nil => exact h
  | cons op ops ih =>
    apply ih
    cases op <;>
      simp [ProducerOp.apply, addFrame, addKeyframe, addKeyframeHistory, removeKeyframe, reset, h]

/-- C9 (as amended). With the worker running, right after `addKeyframe`
(either overload), whatever calls of the front end came before, a keyframe is
pending and `seeds_updating_halt_` is set; and a pass of `updateSeeds` that
starts in that state, from any index and for any frame, returns without
changing the state. -/
theorem addKeyframe_sets_halt (env : Env) (d : DepthFilter) (ops : List ProducerOp)
    (frame : Frame) (depth_mean depth_min : FReal) (history : List Frame)
    (hthread : d.thread_ = true) :
    (addKeyframe env (runProducer env d ops) frame depth_mean depth_min).new_keyframe_set_ = true
      ∧ (addKeyframe env (runProducer env d ops) frame depth_mean depth_min).seeds_updating_halt_
        = true
      ∧ (addKeyframeHistory env (runProducer env d ops) frame depth_mean depth_min
          history).new_keyframe_set_ = true
      ∧ (addKeyframeHistory env (runProducer env d ops) frame depth_mean depth_min
          history).seeds_updating_halt_ = true
      ∧ (∀ (f : Frame) (k : Nat),
          updateSeeds env (addKeyframe env (runProducer env d ops) frame depth_mean depth_min) f k
            = addKeyframe env (runProducer env d ops) frame depth_mean depth_min)
      ∧ (∀ (f : Frame) (k : Nat),
          updateSeeds env
              (addKeyframeHistory env (runProducer env d ops) frame depth_mean depth_min history)
              f k
            = addKeyframeHistory env (runProducer env d ops) frame depth_mean depth_min
                history) := by
  have ht := runProducer_thread env d ops hthread
  have h1 : (addKeyframe env (runProducer env d ops) frame depth_mean
      depth_min).seeds_updating_halt_ = true := by simp [addKeyframe, ht]
  have h2 : (addKeyframeHistory env (runProducer env d ops) frame depth_mean depth_min
      history).seeds_updating_halt_ = true := by simp [addKeyframeHistory, ht]
  refine ⟨by simp [addKeyframe, ht], h1, by simp [addKeyframeHistory, ht], h2, ?_, ?_⟩
  · intro f k
    exact updateSeeds_halt env _ f k h1
  · intro f k
    exact updateSeeds_halt env _ f k h2

/-- Witness of C9: a keyframe submitted after a frame. -/
theorem addKeyframe_sets_halt_witness :
    (addKeyframe envFail (runProducer envFail (startThread agedStore) [ProducerOp.addFrame frameF])
        frameK3 2 1).new_keyframe_set_ = true
      ∧ (addKeyframe envFail
          (runProducer envFail (startThread agedStore) [ProducerOp.addFrame frameF])
          frameK3 2 1).seeds_updating_halt_ = true
      ∧ (addKeyframeHistory envFail
          (runProducer envFail (startThread agedStore) [ProducerOp.addFrame frameF])
          frameK3 2 1 [frameH]).new_keyframe_set_ = true
      ∧ (addKeyframeHistory envFail
          (runProducer envFail (startThread agedStore) [ProducerOp.addFrame frameF])
          frameK3 2 1 [frameH]).seeds_updating_halt_ = true
      ∧ (∀ (f : Frame) (k : Nat),
          updateSeeds envFail
              (addKeyframe envFail
                (runProducer envFail (startThread agedStore) [ProducerOp.addFrame frameF])
                frameK3 2 1) f k
            = addKeyframe envFail
                (runProducer envFail (startThread agedStore) [ProducerOp.addFrame frameF])
                frameK3 2 1)
      ∧ (∀ (f : Frame) (k : Nat),
          updateSeeds envFail
              (addKeyframeHistory envFail
                (runProducer envFail (startThread agedStore) [ProducerOp.addFrame frameF])
                frameK3 2 1 [frameH]) f k
            = addKeyframeHistory envFail
                (runProducer envFail (startThread agedStore) [ProducerOp.addFrame frameF])
                frameK3 2 1 [frameH]) :=
  addKeyframe_sets_halt envFail (startThread agedStore) [ProducerOp.addFrame frameF] frameK3 2 1
    [frameH] rfl

/-- The fields of `lostPreemption`. -/
theorem lostPreemption_eq :
    lostPreemption.thread_ = true
      ∧ lostPreemption.new_keyframe_set_ = true
      ∧ lostPreemption.new_keyframe_ = some frameK3
      ∧ lostPreemption.seeds_updating_halt_ = false
      ∧ lostPreemption.seeds_ = agedStore.seeds_
      ∧ lostPreemption.batch_counter = agedStore.batch_counter
      ∧ lostPreemption.options_ = agedStore.options_ := by
  simp [lostPreemption, runProducer, ProducerOp.apply, addKeyframe, addFrame, startThread]

/-- C9 as stated fails. After `addKeyframe(frameK3)` followed by
`addFrame(frameF)` with the worker running, the keyframe is still pending
(`new_keyframe_set_`) but `seeds_updating_halt_` is clear, since `addFrame`
clears it; a pass of `updateSeeds` started in that state changes the seeds
(`b` goes from `10` to `11`). -/
theorem preemption_lost_counterexample :
    (startThread agedStore).thread_ = true
      ∧ lostPreemption = runProducer envFail (startThread agedStore)
          [ProducerOp.addKeyframe frameK3 2 1, ProducerOp.addFrame frameF]
      ∧ lostPreemption.new_keyframe_set_ = true
      ∧ lostPreemption.new_keyframe_ = some frameK3
      ∧ lostPreemption.seeds_updating_halt_ = false
      ∧ lostPreemption.seeds_.map (fun s => (s.id, s.b)) = [(0, real 10), (1, real 10)]
      ∧ (updateSeeds envFail lostPreemption frameF 0).seeds_.map (fun s => (s.id, s.b))
        = [(0, real 11), (1, real 11)] := by
  obtain ⟨_, h2, h3, h4, h5, h6, h7⟩ := lostPreemption_eq
  obtain ⟨hs, hb, ho, _⟩ := agedStore_eq
  refine ⟨rfl, rfl, h2, h3, h4, ?_, ?_⟩
  · rw [h5, hs]
    simp [Seed.new]
  · rw [updateSeeds_envFail _ _ h4, h5, h6, h7, hs, hb, ho]
    simp [Seed.new, options1]
    norm_num

/-! ## Keyframes without worker thread -/

/-- C6 fails on the code. Without worker thread `addKeyframe` runs only
`initializeSeeds`, where the worker runs `updateSeeds` on the keyframe, then
`initializeSeeds`, then `updateSeeds` of the new seeds against the history.
On `agedStore` (no worker thread, empty queue, two seeds, every match fails)
`addKeyframe(frameK3, 2, 1)` leaves the two existing seeds untouched
(`b = 10`), whereas the worker processing the same keyframe raises their `b`
to `11`. On a fresh filter (empty store) `addKeyframe(frameK1, 2, 1, [frameH])`
without worker ignores the history (the new seed has `b = 10`), whereas the
worker updates the new seed against `frameH` (`b = 11`). -/
theorem inline_keyframe_diverges :
    agedStore.thread_ = false
      ∧ agedStore.frame_queue_ = []
      ∧ frameK3.is_keyframe = true
      ∧ (addKeyframe envFail agedStore frameK3 2 1).seeds_.map (fun s => (s.id, s.b))
        = [(0, real 10), (1, real 10), (2, real 10)]
      ∧ (updateSeedsLoop envFail (addKeyframe envFail (startThread agedStore) frameK3 2 1)).map
          (fun w => w.seeds_.map (fun s => (s.id, s.b)))
        = some [(0, real 11), (1, real 11), (2, real 10)]
      ∧ (addKeyframeHistory envFail (DepthFilter.new options1 0 0 []) frameK1 2 1
          [frameH]).seeds_.map (fun s => (s.id, s.b))
        = [(0, real 10)]
      ∧ (updateSeedsLoop envFail
          (addKeyframeHistory envFail (startThread (DepthFilter.new options1 0 0 [])) frameK1 2 1
            [frameH])).map (fun w => w.seeds_.map (fun s => (s.id, s.b)))
        = some [(0, real 11)] := by
  obtain ⟨hs, hb, ho, hh, hg, hc, hsc, hhist, hq⟩ := agedStore_eq
  refine ⟨rfl, hq, rfl, ?_, ?_, ?_, ?_⟩
  · have := olderStore_eq.1
    rw [olderStore] at this
    rw [this]
    simp [Seed.new]
  · simp only [updateSeedsLoop, dequeue, addKeyframe, startThread, if_true, Option.map_some',
      processFrame, frameK3]
    rw [updateSeeds_envFail_state _ _ _ rfl]
    simp [hs, hb, ho, hsc, hhist, initializeSeeds, emplaceSeeds, envFail, Seed.new, options1]
    norm_num
  · simp [addKeyframeHistory, DepthFilter.new, initializeSeeds, emplaceSeeds, envFail, Seed.new]
  · simp only [updateSeedsLoop, dequeue, addKeyframeHistory, startThread, DepthFilter.new,
      if_true, processFrame, frameK1, clearFrameQueue, Option.map_some']
    rw [updateSeeds_nil _ _ _ _ rfl]
    simp [initializeSeeds, emplaceSeeds, envFail, updateSeeds, updateSeedsWhile, Seed.new,
      options1]
    norm_num

/-! ## History frames -/

/-- C7 fails on the code. The keyframe `frameK1` is submitted with the history
`[frameH]` and processed; then `frameK2` is submitted through the overload
without history: `new_keyframe_update_frames_` is still `[frameH]`, and the
worker, which iterates that member, updates the new seed of `frameK2` against
`frameH` (every match fails, so its `b` is `11`, not `10`; the seed of
`frameK1` has `b = 12`: `frameH`, then `frameK2`). -/
theorem stale_history_used :
    (updateSeedsLoop envFail
        (addKeyframeHistory envFail (startThread (DepthFilter.new options1 0 0 [])) frameK1 2 1
          [frameH])).map
        (fun d => (addKeyframe envFail d frameK2 2 1).new_keyframe_update_frames_)
      = some [frameH]
    ∧ staleHistoryRun.map (fun w => w.seeds_.map (fun s => (s.id, s.ftr.frame, s.b)))
      = some [(0, 1, real 12), (1, 2, real 11)] := by
  have h1 : updateSeedsLoop envFail
      (addKeyframeHistory envFail (startThread (DepthFilter.new options1 0 0 [])) frameK1 2 1
        [frameH])
      = some
        { options_ := options1
          thread_ := true
          thread_halt_ := false
          seeds_ := [{ Seed.new 1 0 ⟨1, (0, 0), 0⟩ 2 1 with b := real 11 }]
          frame_queue_ := []
          seeds_updating_halt_ := false
          new_keyframe_set_ := false
          new_keyframe_ := some frameK1
          new_keyframe_update_frames_ := [frameH]
          new_keyframe_min_depth_ := 1
          new_keyframe_mean_depth_ := 2
          batch_counter := 1
          seed_counter := 1
          grid := []
          converged := [] } := by
    simp only [updateSeedsLoop, dequeue, addKeyframeHistory, startThread, DepthFilter.new, if_true,
      processFrame, frameK1, clearFrameQueue]
    rw [updateSeeds_nil _ _ _ _ rfl]
    simp [initializeSeeds, emplaceSeeds, envFail, updateSeeds, updateSeedsWhile, Seed.new,
      options1]
    norm_num
  constructor
  · rw [h1]
    simp [addKeyframe]
  · rw [staleHistoryRun, h1]
    simp only [Option.some_bind, updateSeedsLoop, dequeue, addKeyframe, if_true, processFrame,
      frameK2, clearFrameQueue, Option.map_some']
    rw [updateSeeds_envFail_state _ _ _ rfl]
    simp [initializeSeeds, emplaceSeeds, envFail, updateSeeds, updateSeedsWhile, Seed.new,
      options1]
    norm_num

/-! ## Failed matches -/

/-- Result of `updateSeed` for a measurement equal to the current `mu`, on real
fields: `mu` is kept and `sigma2` is replaced by a smaller positive value. -/
theorem updateSeed_perfect_real (bid id : Int) (ftr : Feature) (a b mu z sig tau2 : ℝ)
    (ha : 0 < a) (hb : 0 < b) (hsig : 0 < sig) (hz : 0 < z) (htau : 0 < tau2) :
    ∃ a1 b1 sig1 : ℝ, 0 < a1 ∧ 0 < b1 ∧ 0 < sig1 ∧ sig1 < sig ∧
      updateSeed (real mu) (real tau2) ⟨bid, id, ftr, real a, real b, real mu, real z, real sig⟩
        = ⟨bid, id, ftr, real a1, real b1, real mu, real z, real sig1⟩ := by
  obtain ⟨c1, c2, a1, b1, h1, h2, hc, ha1, hb1, h⟩ :=
    updateSeed_real bid id ftr a b mu z sig mu tau2 ha hb hsig hz htau
  have hm : 1 / (1 / sig + 1 / tau2) * (mu / sig + mu / tau2) = mu := by
    field_simp
    ring
  have hs2 : 0 < 1 / (1 / sig + 1 / tau2) := by positivity
  have hs2lt : 1 / (1 / sig + 1 / tau2) < sig := by
    rw [div_lt_iff₀ (by positivity)]
    have : sig * (1 / sig + 1 / tau2) = 1 + sig / tau2 := by
      field_simp
      ring
    rw [this]
    have : 0 < sig / tau2 := by positivity
    linarith
  have hc2 : c2 = 1 - c1 := by linarith
  rw [hm] at h
  have hmu1 : c1 * mu + c2 * mu = mu := by rw [hc2]; ring
  have hsig1 : c1 * (1 / (1 / sig + 1 / tau2) + mu * mu) + c2 * (sig + mu * mu) - mu * mu
      = c1 * (1 / (1 / sig + 1 / tau2)) + c2 * sig := by
    rw [hc2]; ring
  rw [hmu1, hsig1] at h
  refine ⟨a1, b1, c1 * (1 / (1 / sig + 1 / tau2)) + c2 * sig, ha1, hb1, ?_, ?_, h⟩
  · positivity
  · have : c1 * (1 / (1 / sig + 1 / tau2)) < c1 * sig := mul_lt_mul_of_pos_left hs2lt h1
    have hsum : c1 * sig + c2 * sig = sig := by rw [hc2]; ring
    linarith

/-- One perfect measurement keeps the seed well formed, keeps `mu` and lowers
`sigma2`. -/
theorem updateSeed_perfect_step (seed : Seed) (mu tau2 : ℝ)
    (ha : seed.a.Pos) (hb : seed.b.Pos) (hsig : seed.sigma2.Pos) (hz : seed.z_range.Pos)
    (hmu : seed.mu = real mu) (htau : 0 < tau2) :
    (updateSeed (real mu) (real tau2) seed).a.Pos
      ∧ (updateSeed (real mu) (real tau2) seed).b.Pos
      ∧ (updateSeed (real mu) (real tau2) seed).sigma2.Pos
      ∧ (updateSeed (real mu) (real tau2) seed).z_range.Pos
      ∧ (updateSeed (real mu) (real tau2) seed).mu = real mu
      ∧ FReal.lt (updateSeed (real mu) (real tau2) seed).sigma2 seed.sigma2 = true := by
  obtain ⟨bid, id, ftr, a, b, m, z, sig⟩ := seed
  obtain ⟨a, rfl, ha⟩ := (pos_iff _).mp ha
  obtain ⟨b, rfl, hb⟩ := (pos_iff _).mp hb
  obtain ⟨sig, rfl, hsig⟩ := (pos_iff _).mp hsig
  obtain ⟨z, rfl, hz⟩ := (pos_iff _).mp hz
  simp only at hmu
  subst hmu
  obtain ⟨a1, b1, sig1, ha1, hb1, hs1, hlt, h⟩ :=
    updateSeed_perfect_real bid id ftr a b mu z sig tau2 ha hb hsig hz htau
  rw [h]
  exact ⟨ha1, hb1, hs1, hz, rfl, by simpa [FReal.lt] using hlt⟩

/-- After any number of perfect measurements the seed is well formed and has the
same `mu`. -/
theorem updateSeed_perfect_iterate (seed : Seed) (mu tau2 : ℝ)
    (ha : seed.a.Pos) (hb : seed.b.Pos) (hsig : seed.sigma2.Pos) (hz : seed.z_range.Pos)
    (hmu : seed.mu = real mu) (htau : 0 < tau2) (n : Nat) :
    (Nat.iterate (updateSeed (real mu) (real tau2)) n seed).a.Pos
      ∧ (Nat.iterate (updateSeed (real mu) (real tau2)) n seed).b.Pos
      ∧ (Nat.iterate (updateSeed (real mu) (real tau2)) n seed).sigma2.Pos
      ∧ (Nat.iterate (updateSeed (real mu) (real tau2)) n seed).z_range.Pos
      ∧ (Nat.iterate (updateSeed (real mu) (real tau2)) n seed).mu = real mu := by
  induction n with
  | zero => exact ⟨ha, hb, hsig, hz, hmu⟩
  | succ n ih =>
    obtain ⟨h1, h2, h3, h4, h5⟩ := ih
    rw [Function.iterate_succ_apply']
    obtain ⟨g1, g2, g3, g4, g5, _⟩ := updateSeed_perfect_step _ mu tau2 h1 h2 h3 h4 h5 htau
    exact ⟨g1, g2, g3, g4, g5⟩

/-- C12. For every seed with `a > 0`, `b > 0`, `sigma2 > 0`, `z_range > 0` and a
real `mu`, and every `tau2 > 0`, `updateSeed` with the measurement `x` equal
to the current `mu` leaves `mu` unchanged and strictly decreases `sigma2`,
which stays positive; and so does every further such update: after any number
`n` of them `mu` is still the initial one and the next update lowers `sigma2`
again. -/
theorem updateSeed_perfect_measurement (seed : Seed) (mu tau2 : ℝ)
    (ha : seed.a.Pos) (hb : seed.b.Pos) (hsig : seed.sigma2.Pos) (hz : seed.z_range.Pos)
    (hmu : seed.mu = real mu) (htau : 0 < tau2) :
    (updateSeed seed.mu (real tau2) seed).mu = seed.mu
      ∧ FReal.lt (updateSeed seed.mu (real tau2) seed).sigma2 seed.sigma2 = true
      ∧ (updateSeed seed.mu (real tau2) seed).sigma2.Pos
      ∧ ∀ n : Nat,
          (Nat.iterate (updateSeed seed.mu (real tau2)) n seed).mu = seed.mu
            ∧ (Nat.iterate (updateSeed seed.mu (real tau2)) n seed).sigma2.Pos
            ∧ FReal.lt (Nat.iterate (updateSeed seed.mu (real tau2)) (n + 1) seed).sigma2
                (Nat.iterate (updateSeed seed.mu (real tau2)) n seed).sigma2 = true := by
  obtain ⟨_, _, h3, _, h5, h6⟩ := updateSeed_perfect_step seed mu tau2 ha hb hsig hz hmu htau
  rw [hmu]
  refine ⟨h5, h6, h3, ?_⟩
  intro n
  obtain ⟨g1, g2, g3, g4, g5⟩ := updateSeed_perfect_iterate seed mu tau2 ha hb hsig hz hmu htau n
  rw [Function.iterate_succ_apply']
  exact ⟨g5, g3, (updateSeed_perfect_step _ mu tau2 g1 g2 g3 g4 g5 htau).2.2.2.2.2⟩

/-- Witness of C12: the seed of the convergence scenario (`mu = 1/2`), measured
at `x = 1/2` with `tau2 = 10^-6`. -/
theorem updateSeed_perfect_measurement_witness :
    (updateSeed seed0.mu (real (1 / 1000000)) seed0).mu = seed0.mu
      ∧ FReal.lt (updateSeed seed0.mu (real (1 / 1000000)) seed0).sigma2 seed0.sigma2 = true
      ∧ (updateSeed seed0.mu (real (1 / 1000000)) seed0).sigma2.Pos
      ∧ ∀ n : Nat,
          (Nat.iterate (updateSeed seed0.mu (real (1 / 1000000))) n seed0).mu = seed0.mu
            ∧ (Nat.iterate (updateSeed seed0.mu (real (1 / 1000000))) n seed0).sigma2.Pos
            ∧ FReal.lt
                (Nat.iterate (updateSeed seed0.mu (real (1 / 1000000))) (n + 1) seed0).sigma2
                (Nat.iterate (updateSeed seed0.mu (real (1 / 1000000))) n seed0).sigma2 = true :=
  updateSeed_perfect_measurement seed0 (1 / 2) (1 / 1000000)
    (by simp [seed0]) (by simp [seed0]) (by simp [seed0]) (by simp [seed0]) rfl (by norm_num)

end svo
